import Mathlib

/-!
Shallow embedding of the image-gallery core (ImageCache, UINavigator,
ImageLoader) translated from the C++ sources
`src/ImageCacheLib/src/imagecache.cpp`,
`src/UINavigatorLib/src/uinavigator.cpp`, and
`src/ImageLoaderLib/src/imageloader.cpp`.

Conventions of the embedding:
* C++ `int` is modelled as `Int` (the program never exercises overflow in
  the claims' domains).
* C++ `%` on `int` is truncated remainder, modelled by `Int.tmod`
  (Lean's `%` on `Int` is `Int.emod`, which differs on negatives).
* `QHash<int, QImage>` is modelled as an association list with
  insert-overwrites semantics; only lookup-observable behaviour matters.
* `QImage` is modelled by its dimensions plus an abstract pixel payload
  (`PixelData`): the payload records provenance (decoded file,
  placeholder fill + rendered ID text, scaled copy) because Qt's raster
  contents are outside the program's logic; `isNull` is determined by the
  dimensions exactly as a Qt image constructed with an empty size is null.
* The filesystem is an environment parameter `disk : String → QImage`
  giving the result of `QImage::load` on each path; a null result is a
  decode failure.
* Qt signal emissions are collected in explicit event lists, in emission
  order.
* The single-shot timer of `loadImageAsync` is modelled by returning the
  captured id as a deferred task (`deferredId`); running the task later is
  `runDeferred`, which receives the loader state at run time.
-/

/-- Model of `QSize`: a width/height pair of C++ ints. -/
structure QSize where
  w : Int
  h : Int
deriving DecidableEq

/-- Model of `QSize::isEmpty`: true when width or height is smaller than 1. -/
def QSize.isEmpty (s : QSize) : Bool :=
  decide (s.w < 1 ∨ s.h < 1)

/-- Abstract pixel payload of a `QImage`. Qt's raster operations (fill,
text drawing, smooth scaling) are library code outside this repository;
the payload records which operation produced the pixels, which keeps
distinct images distinct without modelling font rasterisation. -/
inductive PixelData where
  | empty : PixelData
  | fromDisk (path : String) : PixelData
  | placeholderFill (fill : Int) (text : String) : PixelData
  | scaledOf (orig : PixelData) : PixelData
deriving DecidableEq

/-- Model of `QImage`: dimensions plus abstract pixel payload. -/
structure QImage where
  width : Int
  height : Int
  data : PixelData
deriving DecidableEq

/-- The default-constructed `QImage()`: the null image. -/
def QImage.nullImage : QImage :=
  ⟨0, 0, PixelData.empty⟩

/-- Model of `QImage::isNull`: a Qt image is null exactly when it has no
pixels, i.e. when a dimension is not positive (a `QImage` constructed with
an empty or invalid size is null). -/
def QImage.isNull (img : QImage) : Bool :=
  decide (img.width ≤ 0 ∨ img.height ≤ 0)

/-- Model of `QSize::scaled(s, Qt::KeepAspectRatio)` as used by
`QImage::scaled`: fit `orig` inside `s` preserving the aspect ratio, with
C++ truncated integer division (`Int.tdiv`). -/
def QSize.scaledKeepAspect (orig s : QSize) : QSize :=
  if orig.w = 0 ∨ orig.h = 0 then s
  else
    let rw := Int.tdiv (s.h * orig.w) orig.h
    if rw ≤ s.w then ⟨rw, s.h⟩ else ⟨s.w, Int.tdiv (s.w * orig.h) orig.w⟩

/-- Model of `QImage::scaled(size, Qt::KeepAspectRatio,
Qt::SmoothTransformation)`: a null image scales to the null image;
otherwise the dimensions are fitted to the target size and the payload is
marked as scaled. -/
def QImage.scaled (img : QImage) (s : QSize) : QImage :=
  if img.isNull then QImage.nullImage
  else
    let ns := QSize.scaledKeepAspect ⟨img.width, img.height⟩ s
    ⟨ns.w, ns.h, PixelData.scaledOf img.data⟩

/-- Model of `QHash<int, QImage>` lookup (`QHash::value` / membership). -/
def hashLookup : List (Int × QImage) → Int → Option QImage
  | [], _ => none
  | (k, v) :: rest, id => if k = id then some v else hashLookup rest id

/-- Model of `QHash::insert`: overwrite the entry for the key if present,
otherwise add a new entry. -/
def hashInsert : List (Int × QImage) → Int → QImage → List (Int × QImage)
  | [], id, img => [(id, img)]
  | (k, v) :: rest, id, img =>
    if k = id then (id, img) :: rest else (k, v) :: hashInsert rest id img

/-- Model of `QHash::remove`: delete the entry for the key. -/
def hashRemove : List (Int × QImage) → Int → List (Int × QImage)
  | [], _ => []
  | (k, v) :: rest, id =>
    if k = id then hashRemove rest id else (k, v) :: hashRemove rest id

/-- Model of the `ImageCache` class: its single field is the
`QHash<int, QImage> m_imageCache`. -/
structure ImageCache where
  m_imageCache : List (Int × QImage)
deriving DecidableEq

/-- The `ImageCache` constructor: starts with an empty hash. -/
def ImageCache.init : ImageCache :=
  ⟨[]⟩

/-- Model of `ImageCache::setImage` (imagecache.cpp lines 33-40): a null
image is rejected and the cache is left untouched; otherwise the image is
inserted, overwriting any prior entry for the id. -/
def ImageCache.setImage (c : ImageCache) (id : Int) (image : QImage) : ImageCache :=
  if image.isNull then c
  else ⟨hashInsert c.m_imageCache id image⟩

/-- Model of `ImageCache::getImage` (imagecache.cpp lines 50-57): the
stored image if present, else a null `QImage`. -/
def ImageCache.getImage (c : ImageCache) (id : Int) : QImage :=
  match hashLookup c.m_imageCache id with
  | some img => img
  | none => QImage.nullImage

/-- Model of `ImageCache::contains`. -/
def ImageCache.contains (c : ImageCache) (id : Int) : Bool :=
  (hashLookup c.m_imageCache id).isSome

/-- Model of `ImageCache::removeImage`. -/
def ImageCache.removeImage (c : ImageCache) (id : Int) : ImageCache :=
  ⟨hashRemove c.m_imageCache id⟩

/-- Model of `ImageCache::clear`. -/
def ImageCache.clear (_ : ImageCache) : ImageCache :=
  ⟨[]⟩

/-- A mutating cache operation, used to speak about what happens to an
entry across later cache activity. -/
inductive CacheOp where
  | set (id : Int) (img : QImage) : CacheOp
  | remove (id : Int) : CacheOp
  | clear : CacheOp
deriving DecidableEq

/-- Apply one cache operation. -/
def ImageCache.applyOp (c : ImageCache) : CacheOp → ImageCache
  | CacheOp.set id img => c.setImage id img
  | CacheOp.remove id => c.removeImage id
  | CacheOp.clear => c.clear

/-- Apply a sequence of cache operations, oldest first. -/
def ImageCache.applyOps (c : ImageCache) : List CacheOp → ImageCache
  | [] => c
  | op :: ops => (c.applyOp op).applyOps ops

/-- An operation preserves the entry of `id` when it is not a `clear`, not
a removal of `id`, and not an effective overwrite of `id` (a `set` of `id`
with a null image is rejected by the cache and so preserves the entry). -/
def CacheOp.preservesEntry (op : CacheOp) (id : Int) : Bool :=
  match op with
  | CacheOp.set j img => decide (j ≠ id) || img.isNull
  | CacheOp.remove j => decide (j ≠ id)
  | CacheOp.clear => false

/-- Model of the `UINavigator` class state: the two C++ int fields. -/
structure UINavigator where
  m_currentImageId : Int
  m_maxImageId : Int
deriving DecidableEq

/-- Model of the `UINavigator` constructor (uinavigator.cpp lines 25-39):
a negative initial id is raised to 0, then an initial id above
`maxImageId` is lowered to `maxImageId` — even when `maxImageId` is
negative. -/
def UINavigator.construct (initialImageId maxImageId : Int) : UINavigator :=
  let c1 := if initialImageId < 0 then 0 else initialImageId
  let c2 := if c1 > maxImageId then maxImageId else c1
  ⟨c2, maxImageId⟩

/-- Result of a navigation call: the C++ return value, the new state, and
the ids carried by the `imageIdChanged` signals emitted during the call. -/
structure NavResult where
  ok : Bool
  nav : UINavigator
  emitted : List Int
deriving DecidableEq

/-- Model of `UINavigator::next` (uinavigator.cpp lines 94-100): fails when
`m_maxImageId < 0`; otherwise advances with the C++ `%` (truncated
remainder, `Int.tmod`) and emits `imageIdChanged` with the new id. -/
def UINavigator.next (n : UINavigator) : NavResult :=
  if n.m_maxImageId < 0 then ⟨false, n, []⟩
  else
    let c := Int.tmod (n.m_currentImageId + 1) (n.m_maxImageId + 1)
    ⟨true, ⟨c, n.m_maxImageId⟩, [c]⟩

/-- Model of `UINavigator::previous` (uinavigator.cpp lines 111-122): fails
when `m_maxImageId < 0`; wraps from 0 to `m_maxImageId`, otherwise
decrements; emits `imageIdChanged` with the new id. -/
def UINavigator.previous (n : UINavigator) : NavResult :=
  if n.m_maxImageId < 0 then ⟨false, n, []⟩
  else
    let c := if n.m_currentImageId = 0 then n.m_maxImageId
             else n.m_currentImageId - 1
    ⟨true, ⟨c, n.m_maxImageId⟩, [c]⟩

/-- Model of `UINavigator::setMaxImageId` (uinavigator.cpp lines 61-74):
a negative requested max becomes 0; if the result differs from the current
max it is stored, and the current id is lowered (with a signal) only when
it exceeds the new max. Returns the new state and the emitted ids. -/
def UINavigator.setMaxImageId (n : UINavigator) (maxId : Int) : UINavigator × List Int :=
  let m := if maxId < 0 then 0 else maxId
  if n.m_maxImageId ≠ m then
    if n.m_currentImageId > m then (⟨m, m⟩, [m])
    else (⟨n.m_currentImageId, m⟩, [])
  else (n, [])

/-- States reachable from a given navigator state through `next`,
`previous` and `setMaxImageId`. -/
inductive ReachableFrom : UINavigator → UINavigator → Prop where
  | refl (n : UINavigator) : ReachableFrom n n
  | next {n0 n : UINavigator} :
      ReachableFrom n0 n → ReachableFrom n0 n.next.nav
  | previous {n0 n : UINavigator} :
      ReachableFrom n0 n → ReachableFrom n0 n.previous.nav
  | setMax {n0 n : UINavigator} (m : Int) :
      ReachableFrom n0 n → ReachableFrom n0 (n.setMaxImageId m).1

/-- States reachable through some constructor call followed by `next`,
`previous` and `setMaxImageId`. -/
def ReachableNav (n : UINavigator) : Prop :=
  ∃ i m, ReachableFrom (UINavigator.construct i m) n

/-- A notification signal of the loader: `imageLoaded(id, image)` or
`loadingError(id, message)`. -/
inductive Notif where
  | imageLoaded (id : Int) (img : QImage) : Notif
  | loadingError (id : Int) (msg : String) : Notif
deriving DecidableEq

/-- Model of the `ImageLoader` class state. `m_imageCache` is the C++
cache pointer together with the pointed-to cache contents (`none` models a
null pointer). `disk` is the environment: the result of `QImage::load` on
each path, with a null image meaning the decode failed. The path table
`m_imagePaths` is the result of the constructor's directory scan. -/
structure ImageLoader where
  m_imageDirPath : String
  m_maxConfiguredImages : Int
  m_maxPreviewSize : QSize
  m_imageCache : Option ImageCache
  m_imagePaths : List String
  disk : String → QImage

/-- Model of `qMax` on C++ ints. -/
def qMax (a b : Int) : Int :=
  if a < b then b else a

/-- Model of `ImageLoader::imageCount` (imageloader.cpp lines 126-128):
`qMax(m_imagePaths.size(), m_maxConfiguredImages)`. -/
def ImageLoader.imageCount (L : ImageLoader) : Int :=
  qMax (L.m_imagePaths.length : Int) L.m_maxConfiguredImages

/-- Model of `ImageLoader::generatePlaceholderImage` (imageloader.cpp lines
93-116): a `QImage` of the configured maximum preview size (null exactly
when that size is empty, as in Qt), filled dark gray `#444444`, with the
decimal id rendered as centered text. -/
def ImageLoader.generatePlaceholderImage (L : ImageLoader) (id : Int) : QImage :=
  ⟨L.m_maxPreviewSize.w, L.m_maxPreviewSize.h,
   PixelData.placeholderFill 0x444444 (toString id)⟩

/-- The C++ test `m_imageCache && m_imageCache->contains(id)`. -/
def ImageLoader.cacheHasImage (L : ImageLoader) (id : Int) : Bool :=
  match L.m_imageCache with
  | some c => c.contains id
  | none => false

/-- The C++ call `m_imageCache->getImage(id)` (only reached when the
pointer is non-null). -/
def ImageLoader.cacheGetImage (L : ImageLoader) (id : Int) : QImage :=
  match L.m_imageCache with
  | some c => c.getImage id
  | none => QImage.nullImage

/-- Outcome of a `loadImageAsync` call: the notifications emitted
synchronously (before the call returns, in order) and the id captured by
the single-shot timer lambda when deferred work was scheduled (`none` when
nothing was scheduled). -/
structure LoadCall where
  events : List Notif
  deferredId : Option Int
deriving DecidableEq

/-- Model of the synchronous part of `ImageLoader::loadImageAsync`
(imageloader.cpp lines 140-155): out-of-bounds ids signal `loadingError`
with message "Image ID out of bounds." immediately; a cache hit signals
`imageLoaded` with the cached image immediately; otherwise a deferred task
capturing `id` is scheduled on the 50 ms single-shot timer. -/
def ImageLoader.loadImageAsync (L : ImageLoader) (id : Int) : LoadCall :=
  if id < 0 ∨ L.imageCount ≤ id then
    ⟨[Notif.loadingError id "Image ID out of bounds."], none⟩
  else if L.cacheHasImage id then
    ⟨[Notif.imageLoaded id (L.cacheGetImage id)], none⟩
  else
    ⟨[], some id⟩

/-- Model of the timer lambda of `ImageLoader::loadImageAsync`
(imageloader.cpp lines 155-186), run with the loader state at fire time:
a real path is decoded from disk with placeholder fallback on failure, an
id beyond the path table generates a placeholder directly; a non-null
result is scaled, stored in the cache when the pointer is non-null, and
signalled through `imageLoaded`; a null result signals `loadingError`.
Returns the emitted notifications and the new loader state. -/
def ImageLoader.runDeferred (L : ImageLoader) (id : Int) : List Notif × ImageLoader :=
  let loadedImage :=
    if id < (L.m_imagePaths.length : Int) then
      let fromFile := L.disk (L.m_imagePaths.getD id.toNat "")
      if fromFile.isNull then L.generatePlaceholderImage id else fromFile
    else
      L.generatePlaceholderImage id
  if loadedImage.isNull then
    ([Notif.loadingError id "Failed to load or generate image."], L)
  else
    let scaledImage := loadedImage.scaled L.m_maxPreviewSize
    let L2 :=
      match L.m_imageCache with
      | some c => { L with m_imageCache := some (c.setImage id scaledImage) }
      | none => L
    ([Notif.imageLoaded id scaledImage], L2)

/-- A cache stores only non-null images in every entry. -/
def ImageCache.wellFormed (c : ImageCache) : Prop :=
  ∀ (id : Int) (img : QImage), hashLookup c.m_imageCache id = some img → img.isNull = false

/-- Concrete loader used for evaluation: empty directory scan, configured
maximum 15, preview size 800x600, attached empty cache, every disk decode
failing. -/
def demoLoader : ImageLoader :=
  { m_imageDirPath := "images", m_maxConfiguredImages := 15,
    m_maxPreviewSize := ⟨800, 600⟩, m_imageCache := some ImageCache.init,
    m_imagePaths := [], disk := fun _ => QImage.nullImage }

/-- Concrete loader whose attached cache already holds an image for id 0. -/
def cachedLoader : ImageLoader :=
  { demoLoader with
    m_imageCache := some (ImageCache.init.setImage 0 ⟨2, 2, PixelData.fromDisk "p"⟩) }

/-- Concrete loader configured with an empty (0x0) maximum preview size,
one real path whose decode fails, and an attached empty cache. -/
def brokenLoader : ImageLoader :=
  { m_imageDirPath := "images", m_maxConfiguredImages := 15,
    m_maxPreviewSize := ⟨0, 0⟩, m_imageCache := some ImageCache.init,
    m_imagePaths := ["images/a.png"], disk := fun _ => QImage.nullImage }

/-- The same loader with a valid 800x600 preview size. -/
def fallbackLoader : ImageLoader :=
  { brokenLoader with m_maxPreviewSize := ⟨800, 600⟩ }

/-- Concrete loader whose directory scan found three real images. -/
def threePathLoader : ImageLoader :=
  { demoLoader with m_imagePaths := ["a.png", "b.png", "c.png"] }

/-! Helper lemmas about the hash-table model. -/

theorem hashLookup_hashInsert (l : List (Int × QImage)) (id j : Int) (img : QImage) :
    hashLookup (hashInsert l id img) j = if j = id then some img else hashLookup l j := by
  induction l with
  | nil =>
    by_cases h : j = id
    · subst h; simp [hashInsert, hashLookup]
    · simp [hashInsert, hashLookup, h, show ¬ id = j by omega]
  | cons kv rest ih =>
    obtain ⟨k, v⟩ := kv
    by_cases hk : k = id
    · subst hk
      by_cases h : k = j
      · subst h; simp [hashInsert, hashLookup]
      · simp [hashInsert, hashLookup, h, show ¬ j = k by omega]
    · by_cases h : k = j
      · subst h
        simp [hashInsert, hashLookup, hk, show ¬ k = id by omega, ih]
      · simp [hashInsert, hashLookup, hk, h, ih]

theorem hashLookup_hashRemove (l : List (Int × QImage)) (id j : Int) :
    hashLookup (hashRemove l id) j = if j = id then none else hashLookup l j := by
  induction l with
  | nil => simp [hashRemove, hashLookup]
  | cons kv rest ih =>
    obtain ⟨k, v⟩ := kv
    by_cases hk : k = id
    · subst hk
      by_cases h : k = j
      · subst h; simp [hashRemove, hashLookup, ih]
      · simp [hashRemove, hashLookup, h, ih]
    · by_cases h : k = j
      · subst h
        simp [hashRemove, hashLookup, hk, show ¬ k = id by omega, ih]
      · simp [hashRemove, hashLookup, hk, h, ih]

/-! Helper lemmas about the cache operations. -/

theorem getImage_setImage_same (c : ImageCache) (id : Int) (img : QImage)
    (h : img.isNull = false) :
    hashLookup (c.setImage id img).m_imageCache id = some img := by
  simp [ImageCache.setImage, h, hashLookup_hashInsert]

theorem lookup_applyOp_preserved (c : ImageCache) (op : CacheOp) (id : Int)
    (h : op.preservesEntry id = true) :
    hashLookup (c.applyOp op).m_imageCache id = hashLookup c.m_imageCache id := by
  cases op with
  | set j img =>
    simp only [CacheOp.preservesEntry, Bool.or_eq_true, decide_eq_true_eq] at h
    rcases h with h | h
    · simp only [ImageCache.applyOp, ImageCache.setImage]
      split
      · rfl
      · simp [hashLookup_hashInsert, show ¬ id = j by omega]
    · simp [ImageCache.applyOp, ImageCache.setImage, h]
  | remove j =>
    simp only [CacheOp.preservesEntry, decide_eq_true_eq] at h
    simp [ImageCache.applyOp, ImageCache.removeImage, hashLookup_hashRemove,
      show ¬ id = j by omega]
  | clear => simp [CacheOp.preservesEntry] at h

theorem lookup_applyOps_preserved (ops : List CacheOp) (c : ImageCache) (id : Int)
    (h : ∀ op ∈ ops, op.preservesEntry id = true) :
    hashLookup (c.applyOps ops).m_imageCache id = hashLookup c.m_imageCache id := by
  induction ops generalizing c with
  | nil => rfl
  | cons op ops ih =>
    have h1 := h op (by simp)
    have h2 : ∀ o ∈ ops, o.preservesEntry id = true := fun o ho => h o (by simp [ho])
    have he : ImageCache.applyOps c (op :: ops) = (c.applyOp op).applyOps ops := rfl
    rw [he, ih _ h2, lookup_applyOp_preserved c op id h1]

theorem wellFormed_applyOp (c : ImageCache) (op : CacheOp) (h : c.wellFormed) :
    (c.applyOp op).wellFormed := by
  cases op with
  | set j img =>
    intro id i hl
    by_cases hn : img.isNull = true
    · simp only [ImageCache.applyOp, ImageCache.setImage, hn, if_true] at hl
      exact h id i hl
    · simp only [ImageCache.applyOp, ImageCache.setImage, hn, if_false,
        Bool.false_eq_true] at hl
      rw [hashLookup_hashInsert] at hl
      split at hl
      · cases hl
        simpa using hn
      · exact h id i hl
  | remove j =>
    intro id i hl
    simp only [ImageCache.applyOp, ImageCache.removeImage] at hl
    rw [hashLookup_hashRemove] at hl
    split at hl
    · cases hl
    · exact h id i hl
  | clear =>
    intro id i hl
    simp [ImageCache.applyOp, ImageCache.clear, hashLookup] at hl

theorem wellFormed_applyOps (ops : List CacheOp) (c : ImageCache) (h : c.wellFormed) :
    (c.applyOps ops).wellFormed := by
  induction ops generalizing c with
  | nil => exact h
  | cons op ops ih => exact ih _ (wellFormed_applyOp c op h)

/-! Helper lemmas characterizing the navigator transitions. -/

theorem next_neg (n : UINavigator) (h : n.m_maxImageId < 0) : n.next = ⟨false, n, []⟩ := by
  simp [UINavigator.next, h]

theorem next_nonneg (n : UINavigator) (h : 0 ≤ n.m_maxImageId) :
    n.next = ⟨true, ⟨Int.tmod (n.m_currentImageId + 1) (n.m_maxImageId + 1), n.m_maxImageId⟩,
              [Int.tmod (n.m_currentImageId + 1) (n.m_maxImageId + 1)]⟩ := by
  simp [UINavigator.next, show ¬ n.m_maxImageId < 0 by omega]

theorem previous_neg (n : UINavigator) (h : n.m_maxImageId < 0) : n.previous = ⟨false, n, []⟩ := by
  simp [UINavigator.previous, h]

theorem previous_nonneg (n : UINavigator) (h : 0 ≤ n.m_maxImageId) :
    n.previous = ⟨true,
      ⟨if n.m_currentImageId = 0 then n.m_maxImageId else n.m_currentImageId - 1, n.m_maxImageId⟩,
      [if n.m_currentImageId = 0 then n.m_maxImageId else n.m_currentImageId - 1]⟩ := by
  simp [UINavigator.previous, show ¬ n.m_maxImageId < 0 by omega]

theorem construct_fields (i m : Int) :
    (UINavigator.construct i m).m_maxImageId = m ∧
    (UINavigator.construct i m).m_currentImageId =
      (if (if i < 0 then 0 else i) > m then m else if i < 0 then 0 else i) := by
  constructor <;> rfl

theorem construct_inv (i m : Int) :
    (0 ≤ m → (UINavigator.construct i m).m_currentImageId ≤ m) ∧
    (m < 0 → (UINavigator.construct i m).m_currentImageId = m) := by
  rw [(construct_fields i m).2]
  constructor <;> intro h <;> repeat' split
  all_goals omega

theorem reachableFrom_inv (n0 n : UINavigator) (h : ReachableFrom n0 n)
    (hbase : (0 ≤ n0.m_maxImageId → n0.m_currentImageId ≤ n0.m_maxImageId) ∧
             (n0.m_maxImageId < 0 → n0.m_currentImageId = n0.m_maxImageId)) :
    (0 ≤ n.m_maxImageId → n.m_currentImageId ≤ n.m_maxImageId) ∧
    (n.m_maxImageId < 0 → n.m_currentImageId = n.m_maxImageId) := by
  induction h with
  | refl => exact hbase
  | next h ih =>
    rename_i n1
    by_cases hm : n1.m_maxImageId < 0
    · rw [next_neg n1 hm]; exact ih
    · rw [next_nonneg n1 (by omega)]
      dsimp only
      have hlt := Int.tmod_lt_of_pos (n1.m_currentImageId + 1)
        (show (0:Int) < n1.m_maxImageId + 1 by omega)
      constructor <;> intro h2 <;> omega
  | previous h ih =>
    rename_i n1
    by_cases hm : n1.m_maxImageId < 0
    · rw [previous_neg n1 hm]; exact ih
    · rw [previous_nonneg n1 (by omega)]
      dsimp only
      have hc := ih.1 (by omega)
      constructor <;> intro h2 <;> split <;> omega
  | setMax m h ih =>
    rename_i n1
    simp only [UINavigator.setMaxImageId]
    repeat' split
    all_goals dsimp only
    all_goals first
      | exact ih
      | (constructor <;> intro h2 <;> omega)

theorem reachableFrom_nonneg_inv (i m : Int) (hm : 0 ≤ m) (n : UINavigator)
    (h : ReachableFrom (UINavigator.construct i m) n) :
    0 ≤ n.m_currentImageId ∧ n.m_currentImageId ≤ n.m_maxImageId ∧ 0 ≤ n.m_maxImageId := by
  induction h with
  | refl =>
    refine ⟨?_, ?_, ?_⟩
    · rw [(construct_fields i m).2]; repeat' split
      all_goals omega
    · rw [(construct_fields i m).1]
      exact (construct_inv i m).1 hm
    · rw [(construct_fields i m).1]; exact hm
  | next h ih =>
    rename_i n1
    rw [next_nonneg n1 (by omega)]
    dsimp only
    have hlt := Int.tmod_lt_of_pos (n1.m_currentImageId + 1)
      (show (0:Int) < n1.m_maxImageId + 1 by omega)
    have hge := Int.tmod_nonneg (n1.m_maxImageId + 1)
      (show (0:Int) ≤ n1.m_currentImageId + 1 by omega)
    exact ⟨hge, by omega, by omega⟩
  | previous h ih =>
    rename_i n1
    rw [previous_nonneg n1 (by omega)]
    dsimp only
    refine ⟨?_, ?_, by omega⟩ <;> split <;> omega
  | setMax mm h ih =>
    rename_i n1
    simp only [UINavigator.setMaxImageId]
    repeat' split
    all_goals dsimp only
    all_goals first
      | exact ih
      | omega

/-! Helper lemmas about placeholder generation and scaling. -/

theorem generatePlaceholderImage_isNull (L : ImageLoader) (id : Int) :
    (L.generatePlaceholderImage id).isNull = L.m_maxPreviewSize.isEmpty := by
  simp only [ImageLoader.generatePlaceholderImage, QImage.isNull, QSize.isEmpty]
  rw [decide_eq_decide]
  omega

theorem scaled_self_size (img : QImage) (s : QSize)
    (hw : img.width = s.w) (hh : img.height = s.h) (hs : s.isEmpty = false) :
    img.scaled s = ⟨s.w, s.h, PixelData.scaledOf img.data⟩ := by
  have hs2 : ¬(s.w < 1 ∨ s.h < 1) := by simpa [QSize.isEmpty] using hs
  have hnull : img.isNull = false := by
    simp only [QImage.isNull, hw, hh, decide_eq_false_iff_not]
    omega
  simp only [QImage.scaled, hnull, Bool.false_eq_true, if_false]
  simp only [QSize.scaledKeepAspect, hw, hh]
  rw [if_neg (by omega)]
  have hdiv : Int.tdiv (s.h * s.w) s.h = s.w :=
    Int.mul_tdiv_cancel_left s.w (by omega)
  rw [hdiv, if_pos (le_refl s.w)]

/-! Claim theorems. -/

/-- Claim C1, amended: for every reachable navigator state, `currentId ≤
maxId` holds whenever `maxId ≥ 0`; whenever `maxId < 0`, `currentId`
equals `maxId` (not 0) and `next()`/`previous()` fail without changing the
state or emitting a signal. The full invariant `0 ≤ currentId ≤ maxId`
holds for every state reachable from a construction whose `maxImageId` is
non-negative. -/
theorem navigator_reachable_invariant :
    (∀ n, ReachableNav n →
      (0 ≤ n.m_maxImageId → n.m_currentImageId ≤ n.m_maxImageId) ∧
      (n.m_maxImageId < 0 →
        n.m_currentImageId = n.m_maxImageId ∧
        n.next = ⟨false, n, []⟩ ∧ n.previous = ⟨false, n, []⟩)) ∧
    (∀ i m n, 0 ≤ m → ReachableFrom (UINavigator.construct i m) n →
      0 ≤ n.m_currentImageId ∧ n.m_currentImageId ≤ n.m_maxImageId) := by
  constructor
  · rintro n ⟨i, m, hr⟩
    have hinv := reachableFrom_inv (UINavigator.construct i m) n hr
      (by
        rw [(construct_fields i m).1]
        exact construct_inv i m)
    exact ⟨hinv.1, fun hneg =>
      ⟨hinv.2 hneg, next_neg n hneg, previous_neg n hneg⟩⟩
  · intro i m n hm hr
    have h := reachableFrom_nonneg_inv i m hm n hr
    exact ⟨h.1, h.2.1⟩

/-- Witness for claim C1 at concrete inputs: the state constructed with
`initialImageId = 2`, `maxImageId = -3` is reachable and has
`currentId = maxId` with failing navigation, and the state constructed
with `initialImageId = 7`, `maxImageId = 4` satisfies the full
invariant. -/
theorem navigator_reachable_invariant_w :
    (UINavigator.construct 2 (-3)).m_currentImageId =
      (UINavigator.construct 2 (-3)).m_maxImageId ∧
    (UINavigator.construct 2 (-3)).next = ⟨false, UINavigator.construct 2 (-3), []⟩ ∧
    0 ≤ (UINavigator.construct 7 4).m_currentImageId ∧
    (UINavigator.construct 7 4).m_currentImageId ≤ (UINavigator.construct 7 4).m_maxImageId := by
  have h := navigator_reachable_invariant
  have hr : ReachableNav (UINavigator.construct 2 (-3)) :=
    ⟨2, -3, ReachableFrom.refl _⟩
  have h1 := (h.1 _ hr).2 (by decide)
  have h2 := h.2 7 4 _ (by decide) (ReachableFrom.refl _)
  exact ⟨h1.1, h1.2.1, h2.1, h2.2⟩

/-- Counterexample to claim C1 as stated: construction with
`initialImageId = 0` and `maxImageId = -1` yields `currentId = -1`, not 0;
and the reachable state obtained by constructing with `(5, -2)` and then
calling `setMaxImageId(3)` has `maxId = 3 ≥ 0` but `currentId = -2 < 0`,
violating `0 ≤ currentId ≤ maxId`. -/
theorem navigator_reachable_invariant_cex :
    (UINavigator.construct 0 (-1)).m_maxImageId < 0 ∧
    (UINavigator.construct 0 (-1)).m_currentImageId ≠ 0 ∧
    ReachableNav ((UINavigator.construct 5 (-2)).setMaxImageId 3).1 ∧
    0 ≤ ((UINavigator.construct 5 (-2)).setMaxImageId 3).1.m_maxImageId ∧
    ((UINavigator.construct 5 (-2)).setMaxImageId 3).1.m_currentImageId < 0 := by
  refine ⟨by decide, by decide, ?_, by decide, by decide⟩
  exact ⟨5, -2, ReachableFrom.setMax 3 (ReachableFrom.refl _)⟩

/-- Claim C2, amended: for every id with `id < 0` or `id ≥ imageCount()`,
`loadImageAsync(id)` emits exactly one `loadingError` notification
carrying that id and the message "Image ID out of bounds." (with a
trailing period), does so synchronously before the call returns, emits no
`imageLoaded` notification, and schedules no deferred work. -/
theorem loadImageAsync_out_of_bounds (L : ImageLoader) (id : Int)
    (h : id < 0 ∨ L.imageCount ≤ id) :
    L.loadImageAsync id = ⟨[Notif.loadingError id "Image ID out of bounds."], none⟩ := by
  simp only [ImageLoader.loadImageAsync]
  rw [if_pos h]

/-- Witness for claim C2: id 99 is out of bounds for `demoLoader` (whose
`imageCount` is 15). -/
theorem loadImageAsync_out_of_bounds_w :
    demoLoader.loadImageAsync 99 = ⟨[Notif.loadingError 99 "Image ID out of bounds."], none⟩ :=
  loadImageAsync_out_of_bounds demoLoader 99 (by decide)

/-- Counterexample to claim C2 as stated: the notification emitted for the
out-of-bounds id -1 carries the message "Image ID out of bounds." with a
trailing period, which is not the claimed message "Image ID out of
bounds". -/
theorem loadImageAsync_out_of_bounds_cex :
    (demoLoader.loadImageAsync (-1)).events =
      [Notif.loadingError (-1) "Image ID out of bounds."] ∧
    (demoLoader.loadImageAsync (-1)).deferredId = none ∧
    "Image ID out of bounds." ≠ "Image ID out of bounds" :=
  ⟨by decide, by decide, by decide⟩

/-- Claim C3: from any state satisfying the invariant with images present,
`next()` succeeds and moves to `(currentId + 1) mod (maxId + 1)` (here `%`
is mathematical modulus, `Int.emod`), `previous()` succeeds and wraps from
0 to `maxId` or decrements, and each emits exactly one `imageIdChanged`
signal carrying the new id. -/
theorem next_previous_functional (n : UINavigator)
    (h1 : 0 ≤ n.m_maxImageId) (h2 : 0 ≤ n.m_currentImageId)
    (h3 : n.m_currentImageId ≤ n.m_maxImageId) :
    (n.next.ok = true ∧
     n.next.nav.m_currentImageId = (n.m_currentImageId + 1) % (n.m_maxImageId + 1) ∧
     n.next.nav.m_maxImageId = n.m_maxImageId ∧
     n.next.emitted = [n.next.nav.m_currentImageId]) ∧
    (n.previous.ok = true ∧
     n.previous.nav.m_currentImageId =
       (if n.m_currentImageId = 0 then n.m_maxImageId else n.m_currentImageId - 1) ∧
     n.previous.nav.m_maxImageId = n.m_maxImageId ∧
     n.previous.emitted = [n.previous.nav.m_currentImageId]) := by
  rw [next_nonneg n h1, previous_nonneg n h1]
  dsimp only
  refine ⟨⟨rfl, ?_, rfl, rfl⟩, ⟨rfl, rfl, rfl, rfl⟩⟩
  exact Int.tmod_eq_emod (by omega) (by omega)

/-- Witness for claim C3: from the navigator constructed with
`initialImageId = 0` and `maxImageId = 4`, four `next()` calls yield ids
1, 2, 3, 4, a fifth wraps to 0, and `previous()` from 0 yields 4. -/
theorem next_previous_functional_w :
    (UINavigator.construct 0 4).next.ok = true ∧
    (UINavigator.construct 0 4).next.nav.m_currentImageId = 1 ∧
    (UINavigator.construct 0 4).next.emitted = [1] ∧
    (UINavigator.construct 0 4).next.nav.next.nav.m_currentImageId = 2 ∧
    (UINavigator.construct 0 4).next.nav.next.nav.next.nav.m_currentImageId = 3 ∧
    (UINavigator.construct 0 4).next.nav.next.nav.next.nav.next.nav.m_currentImageId = 4 ∧
    (UINavigator.construct 0 4).next.nav.next.nav.next.nav.next.nav.next.nav.m_currentImageId
      = 0 ∧
    (UINavigator.construct 0 4).previous.nav.m_currentImageId = 4 := by
  have h := next_previous_functional (UINavigator.construct 0 4) (by decide) (by decide)
    (by decide)
  exact ⟨h.1.1, by decide, by decide, by decide, by decide, by decide, by decide, by decide⟩

/-- Claim C4: after `setImage(id, img)` with a non-null image, the cache
satisfies `contains(id)` and `getImage(id) = img`, and this persists
across any further operations that do not clear the cache, remove `id`, or
effectively overwrite `id`; `getImage` on an absent id returns the null
sentinel image (and, being a total function, never fails or throws). -/
theorem cache_set_get_persists (c : ImageCache) (id : Int) (img : QImage) (ops : List CacheOp)
    (himg : img.isNull = false)
    (hops : ∀ op ∈ ops, op.preservesEntry id = true) :
    ((c.setImage id img).applyOps ops).contains id = true ∧
    ((c.setImage id img).applyOps ops).getImage id = img ∧
    ∀ (c2 : ImageCache) (j : Int), c2.contains j = false → c2.getImage j = QImage.nullImage := by
  have hl : hashLookup ((c.setImage id img).applyOps ops).m_imageCache id = some img := by
    rw [lookup_applyOps_preserved ops _ id hops, getImage_setImage_same c id img himg]
  refine ⟨?_, ?_, ?_⟩
  · simp [ImageCache.contains, hl]
  · simp [ImageCache.getImage, hl]
  · intro c2 j hc
    cases hE : hashLookup c2.m_imageCache j with
    | none => simp [ImageCache.getImage, hE]
    | some i => simp [ImageCache.contains, hE] at hc

/-- Witness for claim C4: a concrete image stored under id 1 survives a
store under id 3 and a removal of id 0. -/
theorem cache_set_get_persists_w :
    ((ImageCache.init.setImage 1 ⟨2, 2, PixelData.fromDisk "p"⟩).applyOps
        [CacheOp.set 3 ⟨4, 4, PixelData.fromDisk "q"⟩, CacheOp.remove 0]).contains 1 = true ∧
    ((ImageCache.init.setImage 1 ⟨2, 2, PixelData.fromDisk "p"⟩).applyOps
        [CacheOp.set 3 ⟨4, 4, PixelData.fromDisk "q"⟩, CacheOp.remove 0]).getImage 1 =
      ⟨2, 2, PixelData.fromDisk "p"⟩ := by
  have h := cache_set_get_persists ImageCache.init 1 ⟨2, 2, PixelData.fromDisk "p"⟩
    [CacheOp.set 3 ⟨4, 4, PixelData.fromDisk "q"⟩, CacheOp.remove 0] (by decide) (by decide)
  exact ⟨h.1, h.2.1⟩

/-- Claim C5: `setMaxImageId(newMax)` normalizes a negative `newMax` to 0;
when the normalized value `mm` equals the current max, the state is
unchanged and nothing is emitted; when it differs, the max becomes `mm`
and the current id is clamped down to `mm`, with exactly one
`imageIdChanged` signal emitted if and only if the current id exceeded
`mm`. -/
theorem setMaxImageId_functional (n : UINavigator) (newMax mm : Int)
    (hmm : mm = if newMax < 0 then 0 else newMax) :
    (mm = n.m_maxImageId → n.setMaxImageId newMax = (n, [])) ∧
    (mm ≠ n.m_maxImageId →
      (n.setMaxImageId newMax).1.m_maxImageId = mm ∧
      (n.setMaxImageId newMax).1.m_currentImageId =
        (if mm < n.m_currentImageId then mm else n.m_currentImageId) ∧
      ((n.setMaxImageId newMax).2 ≠ [] ↔ mm < n.m_currentImageId) ∧
      (n.setMaxImageId newMax).2 =
        (if mm < n.m_currentImageId then [mm] else [])) := by
  constructor
  · intro he
    simp only [UINavigator.setMaxImageId, ← hmm, ← he]
    simp
  · intro hne
    by_cases hgt : n.m_currentImageId > mm
    · simp only [UINavigator.setMaxImageId, ← hmm]
      rw [if_pos (Ne.symm hne), if_pos hgt]
      dsimp only
      refine ⟨rfl, ?_, ?_, ?_⟩
      · rw [if_pos hgt]
      · simp [hgt]
      · rw [if_pos hgt]
    · simp only [UINavigator.setMaxImageId, ← hmm]
      rw [if_pos (Ne.symm hne), if_neg hgt]
      dsimp only
      refine ⟨rfl, ?_, ?_, ?_⟩
      · rw [if_neg hgt]
      · simp [hgt]
      · rw [if_neg hgt]

/-- Witness for claim C5 at concrete inputs: from state `(3, 5)`,
`setMaxImageId(2)` stores max 2 and clamps the current id to 2 with one
signal; `setMaxImageId(-5)` normalizes to 0, clamping to 0;
`setMaxImageId(5)` changes nothing and emits nothing. -/
theorem setMaxImageId_functional_w :
    (UINavigator.mk 3 5).setMaxImageId 2 = (UINavigator.mk 2 2, [2]) ∧
    (UINavigator.mk 3 5).setMaxImageId (-5) = (UINavigator.mk 0 0, [0]) ∧
    (UINavigator.mk 3 5).setMaxImageId 5 = (UINavigator.mk 3 5, []) := by
  have h2 := (setMaxImageId_functional (UINavigator.mk 3 5) 2 2 (by decide)).2 (by decide)
  have h5 := (setMaxImageId_functional (UINavigator.mk 3 5) 5 5 (by decide)).1 (by decide)
  exact ⟨by decide, by decide, h5⟩

/-- Claim C6: every `loadImageAsync(id)` call produces exactly one
terminal notification: out-of-bounds ids and cache hits produce it
synchronously (a singleton event list with no deferred work), and
otherwise no synchronous notification is emitted, one deferred task is
scheduled, and running that task — under any loader state at fire time —
emits exactly one notification, either `imageLoaded` or `loadingError`,
never both and never zero. -/
theorem loadImageAsync_one_notification (L : ImageLoader) (id : Int) :
    ((id < 0 ∨ L.imageCount ≤ id) →
      L.loadImageAsync id = ⟨[Notif.loadingError id "Image ID out of bounds."], none⟩) ∧
    (¬(id < 0 ∨ L.imageCount ≤ id) → L.cacheHasImage id = true →
      L.loadImageAsync id = ⟨[Notif.imageLoaded id (L.cacheGetImage id)], none⟩) ∧
    (¬(id < 0 ∨ L.imageCount ≤ id) → L.cacheHasImage id = false →
      L.loadImageAsync id = ⟨[], some id⟩) ∧
    (∀ (L2 : ImageLoader) (id2 : Int),
      (∃ img, (L2.runDeferred id2).1 = [Notif.imageLoaded id2 img]) ∨
      (L2.runDeferred id2).1 = [Notif.loadingError id2 "Failed to load or generate image."]) := by
  refine ⟨?_, ?_, ?_, ?_⟩
  · intro h
    simp only [ImageLoader.loadImageAsync]
    rw [if_pos h]
  · intro h hc
    simp only [ImageLoader.loadImageAsync]
    rw [if_neg h, if_pos hc]
  · intro h hc
    simp only [ImageLoader.loadImageAsync]
    rw [if_neg h, if_neg (by simp [hc])]
  · intro L2 id2
    simp only [ImageLoader.runDeferred]
    repeat' split
    all_goals first
      | exact Or.inr rfl
      | exact Or.inl ⟨_, rfl⟩

/-- Witness for claim C6 at concrete inputs: the in-bounds non-cached id 0
on `demoLoader` schedules deferred work with no synchronous event and its
deferred run emits one notification; the cached id 0 on `cachedLoader` and
the out-of-bounds id -3 each produce exactly one synchronous
notification. -/
theorem loadImageAsync_one_notification_w :
    demoLoader.loadImageAsync 0 = ⟨[], some 0⟩ ∧
    cachedLoader.loadImageAsync 0 =
      ⟨[Notif.imageLoaded 0 (cachedLoader.cacheGetImage 0)], none⟩ ∧
    demoLoader.loadImageAsync (-3) =
      ⟨[Notif.loadingError (-3) "Image ID out of bounds."], none⟩ ∧
    (demoLoader.runDeferred 0).1.length = 1 :=
  ⟨(loadImageAsync_one_notification demoLoader 0).2.2.1 (by decide) (by decide),
   (loadImageAsync_one_notification cachedLoader 0).2.1 (by decide) (by decide),
   (loadImageAsync_one_notification demoLoader (-3)).1 (by decide),
   by decide⟩

/-- Claim C7, amended: for an in-bounds, non-cached id indexing a real
path whose decode fails, the deferred work substitutes the placeholder
generated for that id, scales it, stores it in the attached cache, and
signals `imageLoaded` — provided the configured maximum preview size is
non-empty (so that placeholder generation succeeds) and the cache pointer
is non-null; the decode failure is then not surfaced as a `loadingError`.
When the preview size is empty, placeholder generation yields a null image
and the deferred work signals `loadingError` instead. -/
theorem decode_failure_placeholder (L : ImageLoader) (id : Int) (c0 : ImageCache)
    (hidlen : id < (L.m_imagePaths.length : Int))
    (hdisk : (L.disk (L.m_imagePaths.getD id.toNat "")).isNull = true)
    (hsize : L.m_maxPreviewSize.isEmpty = false)
    (hcache : L.m_imageCache = some c0) :
    (L.runDeferred id).1 =
      [Notif.imageLoaded id ((L.generatePlaceholderImage id).scaled L.m_maxPreviewSize)] ∧
    (L.runDeferred id).2.m_imageCache =
      some (c0.setImage id ((L.generatePlaceholderImage id).scaled L.m_maxPreviewSize)) ∧
    (c0.setImage id ((L.generatePlaceholderImage id).scaled L.m_maxPreviewSize)).contains id
      = true := by
  have hphn : (L.generatePlaceholderImage id).isNull = false := by
    rw [generatePlaceholderImage_isNull, hsize]
  have hsc : (L.generatePlaceholderImage id).scaled L.m_maxPreviewSize =
      ⟨L.m_maxPreviewSize.w, L.m_maxPreviewSize.h,
       PixelData.scaledOf (PixelData.placeholderFill 0x444444 (toString id))⟩ :=
    scaled_self_size _ _ rfl rfl hsize
  have hscn : ((L.generatePlaceholderImage id).scaled L.m_maxPreviewSize).isNull = false := by
    rw [hsc]
    have hs2 : ¬(L.m_maxPreviewSize.w < 1 ∨ L.m_maxPreviewSize.h < 1) := by
      simpa [QSize.isEmpty] using hsize
    simp only [QImage.isNull, decide_eq_false_iff_not]
    omega
  have hrun : L.runDeferred id =
      ([Notif.imageLoaded id ((L.generatePlaceholderImage id).scaled L.m_maxPreviewSize)],
       { L with m_imageCache := some (c0.setImage id
           ((L.generatePlaceholderImage id).scaled L.m_maxPreviewSize)) }) := by
    simp only [ImageLoader.runDeferred]
    rw [if_pos hidlen, if_pos hdisk, if_neg (by simp [hphn]), hcache]
  refine ⟨by rw [hrun], by rw [hrun], ?_⟩
  simp [ImageCache.setImage, hscn, ImageCache.contains, hashLookup_hashInsert]

/-- Counterexample to claim C7 as stated: `brokenLoader` is configured
with an empty (0x0) maximum preview size; id 0 is in bounds, not cached,
and indexes a real path whose decode fails, yet the deferred work signals
`loadingError` (the placeholder fallback is a null image), not
`imageLoaded`. -/
theorem decode_failure_placeholder_cex :
    ((0:Int) < (brokenLoader.m_imagePaths.length : Int)) ∧
    (brokenLoader.disk (brokenLoader.m_imagePaths.getD 0 "")).isNull = true ∧
    brokenLoader.cacheHasImage 0 = false ∧
    brokenLoader.loadImageAsync 0 = ⟨[], some 0⟩ ∧
    (brokenLoader.runDeferred 0).1 =
      [Notif.loadingError 0 "Failed to load or generate image."] :=
  ⟨by decide, by decide, by decide, by decide, by decide⟩

/-- Witness for claim C7: on `fallbackLoader` (valid 800x600 preview
size), the failing decode of id 0 falls back to the scaled placeholder,
which is cached and signalled through `imageLoaded`. -/
theorem decode_failure_placeholder_w :
    (fallbackLoader.runDeferred 0).1 =
      [Notif.imageLoaded 0 ((fallbackLoader.generatePlaceholderImage 0).scaled
        fallbackLoader.m_maxPreviewSize)] ∧
    (ImageCache.init.setImage 0 ((fallbackLoader.generatePlaceholderImage 0).scaled
        fallbackLoader.m_maxPreviewSize)).contains 0 = true := by
  have h := decode_failure_placeholder fallbackLoader 0 ImageCache.init (by decide) (by decide)
    (by decide) rfl
  exact ⟨h.1, h.2.2⟩

/-- Claim C8: a null/empty image passed to `setImage` leaves the entire
cache unchanged (and the operation is total, so no error propagates);
consequently every cache built from the empty cache by any sequence of
operations contains only non-null images. -/
theorem cache_never_stores_null :
    (∀ (c : ImageCache) (id : Int) (img : QImage), img.isNull = true → c.setImage id img = c) ∧
    (∀ (ops : List CacheOp) (id : Int),
      (ImageCache.init.applyOps ops).contains id = true →
      ((ImageCache.init.applyOps ops).getImage id).isNull = false) := by
  constructor
  · intro c id img h
    simp [ImageCache.setImage, h]
  · intro ops id hc
    have hw : (ImageCache.init.applyOps ops).wellFormed := by
      refine wellFormed_applyOps ops ImageCache.init ?_
      intro id img hl
      simp [ImageCache.init, hashLookup] at hl
    cases hE : hashLookup (ImageCache.init.applyOps ops).m_imageCache id with
    | none => simp [ImageCache.contains, hE] at hc
    | some img =>
      simp only [ImageCache.getImage, hE]
      exact hw id img hE

/-- Witness for claim C8: inserting the null image under id 7 leaves the
empty cache unchanged, and the image stored under id 1 after a non-null
insertion is non-null. -/
theorem cache_never_stores_null_w :
    ImageCache.init.setImage 7 QImage.nullImage = ImageCache.init ∧
    ((ImageCache.init.applyOps [CacheOp.set 1 ⟨2, 2, PixelData.empty⟩]).getImage 1).isNull
      = false :=
  ⟨cache_never_stores_null.1 ImageCache.init 7 QImage.nullImage (by decide),
   cache_never_stores_null.2 [CacheOp.set 1 ⟨2, 2, PixelData.empty⟩] 1 (by decide)⟩

/-- Claim C9: `imageCount()` equals the maximum of the path-table length
and the configured maximum gallery size; with 3 discovered paths and a
configured maximum of 15 it returns 15. -/
theorem imageCount_is_max (L : ImageLoader) :
    L.imageCount = max (L.m_imagePaths.length : Int) L.m_maxConfiguredImages ∧
    (L.m_imagePaths.length = 3 → L.m_maxConfiguredImages = 15 → L.imageCount = 15) := by
  constructor
  · simp only [ImageLoader.imageCount, qMax]
    split <;> omega
  · intro h3 h15
    simp only [ImageLoader.imageCount, h3, h15]
    decide

/-- Witness for claim C9: `threePathLoader` has 3 discovered paths and a
configured maximum of 15, and its `imageCount` is 15. -/
theorem imageCount_is_max_w : threePathLoader.imageCount = 15 :=
  (imageCount_is_max threePathLoader).2 rfl rfl

/-- Claim C10: on states satisfying the invariant with images present,
`next` followed by `previous` restores the current id, and so does
`previous` followed by `next`: the two navigation operations are mutual
inverses on the current id. -/
theorem next_previous_inverse (n : UINavigator)
    (h1 : 0 ≤ n.m_maxImageId) (h2 : 0 ≤ n.m_currentImageId)
    (h3 : n.m_currentImageId ≤ n.m_maxImageId) :
    n.next.nav.previous.nav.m_currentImageId = n.m_currentImageId ∧
    n.previous.nav.next.nav.m_currentImageId = n.m_currentImageId := by
  constructor
  · rw [next_nonneg n h1]
    dsimp only
    rw [previous_nonneg _ (by dsimp only; omega)]
    dsimp only
    by_cases hc : n.m_currentImageId = n.m_maxImageId
    · rw [hc, Int.tmod_self]
      simp [hc]
    · rw [Int.tmod_eq_of_lt (by omega) (by omega), if_neg (by omega)]
      omega
  · rw [previous_nonneg n h1]
    dsimp only
    rw [next_nonneg _ (by dsimp only; omega)]
    dsimp only
    by_cases hc : n.m_currentImageId = 0
    · rw [if_pos hc, Int.tmod_self]
      omega
    · rw [if_neg hc]
      have h4 : n.m_currentImageId - 1 + 1 = n.m_currentImageId := by omega
      rw [h4, Int.tmod_eq_of_lt (by omega) (by omega)]

/-- Witness for claim C10 at the concrete state `(2, 7)`. -/
theorem next_previous_inverse_w :
    (UINavigator.mk 2 7).next.nav.previous.nav.m_currentImageId = 2 ∧
    (UINavigator.mk 2 7).previous.nav.next.nav.m_currentImageId = 2 :=
  next_previous_inverse (UINavigator.mk 2 7) (by decide) (by decide) (by decide)
